import Mathlib

/-!
Verification of the `idasen` desk controller core.

Shallow embedding of `idasen/__init__.py` (the `IdasenDesk` class and its
helper functions).  Heights and speeds are modelled as exact rationals
(Python `float` arithmetic is treated as real arithmetic), byte strings as
lists of `Fin 256`, and fallible operations return `Option` or explicit
result types.  The asynchronous control flow of `move_to_target`, `connect`
and `monitor` is modelled as sequential state passing against an explicit
environment describing the responses of the Bluetooth transport; the
`await`-interleavings of separate tasks are outside this model.
-/

namespace Idasen

/-- A single byte of a Bluetooth payload. -/
abbrev Byte := Fin 256

/-- Constant `IdasenDesk.MIN_HEIGHT`: minimum desk height in meters (0.62). -/
def MIN_HEIGHT : ℚ := 62 / 100

/-- Constant `IdasenDesk.MAX_HEIGHT`: maximum desk height in meters (1.27). -/
def MAX_HEIGHT : ℚ := 127 / 100

/-- Constant `IdasenDesk.RETRY_COUNT`: number of times to retry upon failure to connect. -/
def RETRY_COUNT : ℕ := 3

/-- Command `_COMMAND_REFERENCE_INPUT_STOP = bytearray([0x01, 0x80])`. -/
def COMMAND_REFERENCE_INPUT_STOP : List Byte := [0x01, 0x80]

/-- Command `_COMMAND_UP = bytearray([0x47, 0x00])`. -/
def COMMAND_UP : List Byte := [0x47, 0x00]

/-- Command `_COMMAND_DOWN = bytearray([0x46, 0x00])`. -/
def COMMAND_DOWN : List Byte := [0x46, 0x00]

/-- Command `_COMMAND_STOP = bytearray([0xFF, 0x00])`. -/
def COMMAND_STOP : List Byte := [0xFF, 0x00]

/-- Command `_COMMAND_WAKEUP = bytearray([0xFE, 0x00])`. -/
def COMMAND_WAKEUP : List Byte := [0xFE, 0x00]

/-- Little-endian unsigned 16-bit value of two bytes, as produced by
`struct.unpack("<H", ...)`. -/
def u16LE (b0 b1 : Byte) : ℕ := b0.val + 256 * b1.val

/-- Little-endian signed (two's complement) 16-bit value of two bytes, as
produced by `struct.unpack("<h", ...)`. -/
def s16LE (b0 b1 : Byte) : ℤ :=
  let u := u16LE b0 b1
  if u < 32768 then (u : ℤ) else (u : ℤ) - 65536

/-- Function `_bytes_to_meters_and_speed(raw)`: asserts that `raw` is exactly 4 bytes
long (`none` models the `AssertionError` escaping), then unpacks
`struct.unpack("<Hh", raw)` and returns
`(int_raw / 10000 + MIN_HEIGHT, speed_raw / 10000)`. -/
def bytesToMetersAndSpeed (raw : List Byte) : Option (ℚ × ℚ) :=
  match raw with
  | [b0, b1, b2, b3] =>
      some ((u16LE b0 b1 : ℚ) / 10000 + MIN_HEIGHT, (s16LE b2 b3 : ℚ) / 10000)
  | _ => none

/-- Python `int()` applied to a rational: truncation toward zero. -/
def pyIntTrunc (q : ℚ) : ℤ := if 0 ≤ q then ⌊q⌋ else ⌈q⌉

/-- Function `_meters_to_bytes(meters)`: `int_raw = int((meters - MIN_HEIGHT) * 10000)`
followed by `struct.pack("<H", int_raw)`.  `struct.pack` raises `struct.error`
when the value does not fit an unsigned 16-bit integer; `none` models that
exception escaping. -/
def metersToBytes (meters : ℚ) : Option (List Byte) :=
  let intRaw : ℤ := pyIntTrunc ((meters - MIN_HEIGHT) * 10000)
  if h : 0 ≤ intRaw ∧ intRaw < 65536 then
    some [⟨intRaw.toNat % 256, Nat.mod_lt _ (by norm_num)⟩,
          ⟨intRaw.toNat / 256, by omega⟩]
  else none

/-- The encoder the specification describes, word for word:
`round((height_m - MIN_HEIGHT) * 10000)` packed little-endian unsigned
16-bit.  Kept separate from `metersToBytes` (which embeds the source and
truncates with `int(...)`) so the two can be compared. -/
def roundEncodeSpec (meters : ℚ) : Option (List Byte) :=
  let intRaw : ℤ := round ((meters - MIN_HEIGHT) * 10000)
  if h : 0 ≤ intRaw ∧ intRaw < 65536 then
    some [⟨intRaw.toNat % 256, Nat.mod_lt _ (by norm_num)⟩,
          ⟨intRaw.toNat / 256, by omega⟩]
  else none

/-- Python float formatting `f"{x:.3f}"`, modelled as rounding to three
decimal places (decimal-string tie-breaking is not modelled further). -/
def round3 (q : ℚ) : ℚ := (round (q * 1000) : ℚ) / 1000

/-! ## Telemetry monitor (`IdasenDesk.monitor`) -/

/-- One invocation of the `output_listener` closure registered by
`IdasenDesk.monitor`.  `prev` is the `(previous_height, previous_speed)`
pair captured by the closure (both initialised to `0.0`).  Returns the
updated pair together with the reading dispatched to the callback, if any;
`none` models the decode assertion escaping the handler.  In the dispatched
reading the second component is `some speed` exactly when the callback
declared two parameters (`return_speed_value`). -/
def outputListener (returnSpeed : Bool) (prev : ℚ × ℚ) (raw : List Byte) :
    Option ((ℚ × ℚ) × Option (ℚ × Option ℚ)) :=
  match bytesToMetersAndSpeed raw with
  | none => none
  | some (height, speed) =>
      if |height - prev.1| < 1/1000 ∧ (¬returnSpeed ∨ |speed - prev.2| < 1/1000) then
        some (prev, none)
      else
        some ((height, speed),
              some (height, if returnSpeed then some speed else none))

/-- Whether `output_listener` dispatches the frame `raw` to the callback when
the captured previous reading is `prev`. -/
def dispatchesOn (returnSpeed : Bool) (prev : ℚ × ℚ) (raw : List Byte) : Bool :=
  match outputListener returnSpeed prev raw with
  | some (_, some _) => true
  | _ => false

/-- Delivery of a sequence of notification frames to `output_listener`, in
transport order, threading the closure state and collecting the readings
dispatched to the callback. -/
def monitorRun (returnSpeed : Bool) :
    List (List Byte) → ℚ × ℚ → Option (List (ℚ × Option ℚ))
  | [], _ => some []
  | raw :: rest, prev =>
      match outputListener returnSpeed prev raw with
      | none => none
      | some (prev', disp) =>
          match monitorRun returnSpeed rest prev' with
          | none => none
          | some ds => some (disp.toList ++ ds)

/-! ## Connection manager (`IdasenDesk.connect`) -/

/-- Final control-flow outcome of `IdasenDesk.connect`. -/
inductive ConnectOutcome
  | connected
  | exited (code : ℕ)
  | raised
deriving DecidableEq

/-- Observable behaviour of one `IdasenDesk.connect` call: outcome, the
retry numbers logged as warnings (`Failed to connect, retrying (i/3)...`),
the `asyncio.sleep` durations in seconds, and the number of critical log
lines (`Connection failed`). -/
structure ConnectResult where
  outcome : ConnectOutcome
  warnings : List ℕ
  sleeps : List ℚ
  criticals : ℕ
deriving DecidableEq

/-- The `while True` retry loop of `IdasenDesk.connect`, with `i` the loop
counter and `ok k` telling whether the `k`-th connection attempt (transport
connect followed by wakeup) succeeds.  `fuel` is a structural bound; the
top-level call supplies `RETRY_COUNT + 1`, which is never exhausted because
the loop gives up once `RETRY_COUNT ≤ i`. -/
def connectAux (ok : ℕ → Bool) (exitOnFail : Bool) : ℕ → ℕ → ConnectResult
  | _, 0 => ⟨.raised, [], [], 0⟩
  | i, fuel + 1 =>
      if ok i then ⟨.connected, [], [], 0⟩
      else if RETRY_COUNT ≤ i then
        ⟨if exitOnFail then .exited 1 else .raised, [], [], 1⟩
      else
        let r := connectAux ok exitOnFail (i + 1) fuel
        ⟨r.outcome, (i + 1) :: r.warnings, (3/10 * (i + 1) : ℚ) :: r.sleeps,
         r.criticals⟩

/-- Model of `IdasenDesk.connect`: run the retry loop from `i = 0`. -/
def connectRun (ok : ℕ → Bool) (exitOnFail : Bool) : ConnectResult :=
  connectAux ok exitOnFail 0 (RETRY_COUNT + 1)

/-! ## Movement controller (`IdasenDesk.move_to_target`) -/

/-- A transport interaction performed by the move loop. -/
inductive Action
  | readHeight
  | writeCmd (data : List Byte)
  | writeRef (data : List Byte)
  | sleep
deriving DecidableEq

/-- A log line emitted by `move_to_target`. -/
inductive LogEv
  | alreadyMoving
deriving DecidableEq

/-- The `ValueError` raised by the range check of `move_to_target`.  The two
constructors model the two distinct messages; `displayed` is the offending
value as formatted into the message (`f"{target:.3f}"`), `bound` the limit
formatted next to it. -/
inductive RangeErr
  | aboveMax (displayed bound : ℚ)
  | belowMin (displayed bound : ℚ)
deriving DecidableEq

/-- Result of a `move_to_target` call: normal return, `ValueError` from the
range check, any other exception escaping the move task (`failure`), or
exhaustion of the loop fuel of this model (`outOfFuel`). -/
inductive MoveRes
  | ok
  | rangeError (e : RangeErr)
  | failure
  | outOfFuel
deriving DecidableEq

/-- Responses of the transport: `frames k` is the raw payload returned by the
`k`-th read of the height characteristic (`none` = the read raises), and
`cmdOk k` / `refOk k` tell whether the `k`-th write to the command /
reference-input characteristic succeeds. -/
structure Env where
  frames : ℕ → Option (List Byte)
  cmdOk : ℕ → Bool
  refOk : ℕ → Bool

/-- Observable behaviour of one `move_to_target` call: the final value of
`self._moving`, the transport interactions attempted (in order), the error
log lines, and the control-flow result. -/
structure MoveOutcome where
  moving : Bool
  trace : List Action
  logs : List LogEv
  result : MoveRes
deriving DecidableEq

/-- The `while self._moving:` loop of `do_move`.  `r` counts height reads
already performed, `f` counts reference-input writes already performed, and
`tr` accumulates the trace.  In this sequential model no concurrent `stop()`
runs, so `self._moving` remains `True` throughout and the loop is left only
via the zero-speed break, an exception, or fuel exhaustion. -/
def doMoveLoop (env : Env) (data : List Byte) :
    ℕ → ℕ → ℕ → List Action → List Action × MoveRes
  | 0, _, _, tr => (tr, .outOfFuel)
  | fuel + 1, r, f, tr =>
      if env.refOk f then
        match env.frames r with
        | none => (tr ++ [.writeRef data, .sleep, .readHeight], .failure)
        | some raw =>
            match bytesToMetersAndSpeed raw with
            | none => (tr ++ [.writeRef data, .sleep, .readHeight], .failure)
            | some (_, speed) =>
                if speed = 0 then
                  (tr ++ [.writeRef data, .sleep, .readHeight], .ok)
                else
                  doMoveLoop env data fuel (r + 1) (f + 1)
                    (tr ++ [.writeRef data, .sleep, .readHeight])
      else (tr ++ [.writeRef data], .failure)

/-- The `do_move` coroutine defined inside `move_to_target`: read the current
height (`get_height`), return at once if it already equals the target,
otherwise write the wakeup and stop commands, encode the target, and enter
the reference-input loop. -/
def doMove (env : Env) (target : ℚ) (fuel : ℕ) : List Action × MoveRes :=
  match env.frames 0 with
  | none => ([.readHeight], .failure)
  | some raw =>
      match bytesToMetersAndSpeed raw with
      | none => ([.readHeight], .failure)
      | some (currentHeight, _) =>
          if currentHeight = target then ([.readHeight], .ok)
          else if env.cmdOk 0 then
            if env.cmdOk 1 then
              match metersToBytes target with
              | none =>
                  ([.readHeight, .writeCmd COMMAND_WAKEUP,
                    .writeCmd COMMAND_STOP], .failure)
              | some data =>
                  doMoveLoop env data fuel 1 0
                    [.readHeight, .writeCmd COMMAND_WAKEUP,
                     .writeCmd COMMAND_STOP]
            else
              ([.readHeight, .writeCmd COMMAND_WAKEUP,
                .writeCmd COMMAND_STOP], .failure)
          else ([.readHeight, .writeCmd COMMAND_WAKEUP], .failure)

/-- Model of `IdasenDesk.move_to_target(target)`: the range check, the already-moving
check, then `self._moving = True`, the awaited `do_move` task, and
`self._moving = False` — which, in the source, executes only when awaiting
the task returns normally (there is no `try`/`finally`). -/
def moveToTarget (env : Env) (moving : Bool) (target : ℚ) (fuel : ℕ) :
    MoveOutcome :=
  if MAX_HEIGHT < target then
    ⟨moving, [], [], .rangeError (.aboveMax (round3 target) (round3 MAX_HEIGHT))⟩
  else if target < MIN_HEIGHT then
    ⟨moving, [], [], .rangeError (.belowMin (round3 target) (round3 MIN_HEIGHT))⟩
  else if moving then
    ⟨moving, [], [.alreadyMoving], .ok⟩
  else
    match doMove env target fuel with
    | (tr, .ok) => ⟨false, tr, [], .ok⟩
    | (tr, res) => ⟨true, tr, [], res⟩

/-- Environment in which every height read reports the desk already at
1.27 m (frame `0x64 0x19 0x00 0x00`) and every write succeeds. -/
def envAtMax : Env :=
  ⟨fun _ => some [0x64, 0x19, 0x00, 0x00], fun _ => true, fun _ => true⟩

/-- Environment in which every read of the height characteristic raises a
transport error. -/
def envReadFail : Env := ⟨fun _ => none, fun _ => true, fun _ => true⟩

/-! ## Helper lemmas -/

lemma min_lt_max : MIN_HEIGHT < MAX_HEIGHT := by norm_num [MIN_HEIGHT, MAX_HEIGHT]

lemma decode_max_frame :
    bytesToMetersAndSpeed [0x64, 0x19, 0x00, 0x00] = some (MAX_HEIGHT, 0) := by
  rw [bytesToMetersAndSpeed, show u16LE 0x64 0x19 = 6500 from rfl,
      show s16LE 0x00 0x00 = 0 from rfl]
  norm_num [MIN_HEIGHT, MAX_HEIGHT]

lemma decode_min_frame :
    bytesToMetersAndSpeed [0x00, 0x00, 0x00, 0x00] = some (MIN_HEIGHT, 0) := by
  rw [bytesToMetersAndSpeed, show u16LE 0x00 0x00 = 0 from rfl,
      show s16LE 0x00 0x00 = 0 from rfl]
  norm_num

lemma decode_height_ge_min (raw : List Byte) (h s : ℚ)
    (hdec : bytesToMetersAndSpeed raw = some (h, s)) : MIN_HEIGHT ≤ h := by
  rcases raw with _ | ⟨b0, _ | ⟨b1, _ | ⟨b2, _ | ⟨b3, _ | ⟨b4, rest⟩⟩⟩⟩⟩ <;>
    simp only [bytesToMetersAndSpeed, Option.some.injEq, Prod.mk.injEq,
      reduceCtorEq] at hdec
  obtain ⟨hh, -⟩ := hdec
  have h0 : (0 : ℚ) ≤ (u16LE b0 b1 : ℚ) / 10000 := by positivity
  linarith [hh.symm ▸ le_refl h]

/-! ## Claim theorems -/

/-- C1: for every 4-byte telemetry frame, `_bytes_to_meters_and_speed` returns
height = unsigned little-endian 16-bit of bytes `[0:2]` divided by 10000 plus
`MIN_HEIGHT`, and speed = signed little-endian 16-bit of bytes `[2:4]` divided
by 10000; in particular `0x64 0x19 0x00 0x00` decodes to `MAX_HEIGHT` (1.27),
`0x00 0x00 0x00 0x00` to `MIN_HEIGHT` (0.62), `0x51 0x04 0x00 0x00` to height
0.7305, and `0x08 0x08 0x02 0x01` to (0.8256, 0.0258). -/
theorem decode_formula_and_examples :
    (∀ b0 b1 b2 b3 : Byte,
        bytesToMetersAndSpeed [b0, b1, b2, b3] =
          some ((u16LE b0 b1 : ℚ) / 10000 + MIN_HEIGHT, (s16LE b2 b3 : ℚ) / 10000))
    ∧ bytesToMetersAndSpeed [0x64, 0x19, 0x00, 0x00] = some (MAX_HEIGHT, 0)
    ∧ bytesToMetersAndSpeed [0x00, 0x00, 0x00, 0x00] = some (MIN_HEIGHT, 0)
    ∧ bytesToMetersAndSpeed [0x51, 0x04, 0x00, 0x00] = some (7305/10000, 0)
    ∧ bytesToMetersAndSpeed [0x08, 0x08, 0x02, 0x01] =
        some (8256/10000, 258/10000) := by
  refine ⟨fun b0 b1 b2 b3 => rfl, decode_max_frame, decode_min_frame, ?_, ?_⟩
  · rw [bytesToMetersAndSpeed, show u16LE 0x51 0x04 = 1105 from rfl,
        show s16LE 0x00 0x00 = 0 from rfl]
    norm_num [MIN_HEIGHT]
  · rw [bytesToMetersAndSpeed, show u16LE 0x08 0x08 = 2056 from rfl,
        show s16LE 0x02 0x01 = 258 from rfl]
    norm_num [MIN_HEIGHT]

/-- C8: `_bytes_to_meters_and_speed` fails (assertion error, modelled by
`none`) for every input whose length is not exactly 4, and returns a
(height, speed) pair for every input of length exactly 4. -/
theorem decode_length_guard :
    (∀ raw : List Byte, raw.length ≠ 4 → bytesToMetersAndSpeed raw = none)
    ∧ ∀ b0 b1 b2 b3 : Byte, (bytesToMetersAndSpeed [b0, b1, b2, b3]).isSome := by
  constructor
  · intro raw hlen
    rcases raw with _ | ⟨a, _ | ⟨b, _ | ⟨c, _ | ⟨d, _ | ⟨e, rest⟩⟩⟩⟩⟩ <;>
      first
        | rfl
        | simp at hlen
  · intro b0 b1 b2 b3
    rfl

/-- Witness for C8 at concrete inputs: a 3-byte frame is rejected, a 4-byte
frame is decoded. -/
theorem decode_length_guard_witness :
    bytesToMetersAndSpeed [(0 : Byte), 0, 0] = none
    ∧ (bytesToMetersAndSpeed [(0 : Byte), 0, 0, 0]).isSome :=
  ⟨decode_length_guard.1 [0, 0, 0] (by simp), decode_length_guard.2 0 0 0 0⟩

/-- C9 counterexample: the frame `0x20 0x2A 0x00 0x00` (used by the
repository's own monitor test) decodes to height 1.6984, which is strictly
above `MAX_HEIGHT` — so decoded heights are *not* always within
`[MIN_HEIGHT, MAX_HEIGHT]`. -/
theorem decode_height_above_max :
    bytesToMetersAndSpeed [0x20, 0x2A, 0x00, 0x00] = some (16984/10000, 0)
    ∧ MAX_HEIGHT < 16984/10000 := by
  constructor
  · rw [bytesToMetersAndSpeed, show u16LE 0x20 0x2A = 10784 from rfl,
        show s16LE 0x00 0x00 = 0 from rfl]
    norm_num [MIN_HEIGHT]
  · norm_num [MAX_HEIGHT]

/-- C9 amended: for every 4-byte frame the decoded height is at least
`MIN_HEIGHT` (the raw counter is non-negative), and it is at most
`MAX_HEIGHT` exactly when the raw height counter is at most 6500; the decoder
itself does not clamp to the physical range. -/
theorem decode_height_bounds (b0 b1 b2 b3 : Byte) (h s : ℚ)
    (hdec : bytesToMetersAndSpeed [b0, b1, b2, b3] = some (h, s)) :
    MIN_HEIGHT ≤ h ∧ (h ≤ MAX_HEIGHT ↔ u16LE b0 b1 ≤ 6500) := by
  simp only [bytesToMetersAndSpeed, Option.some.injEq, Prod.mk.injEq] at hdec
  obtain ⟨hh, -⟩ := hdec
  subst hh
  constructor
  · have h0 : (0 : ℚ) ≤ (u16LE b0 b1 : ℚ) / 10000 := by positivity
    linarith
  · constructor
    · intro hle
      have hq : (u16LE b0 b1 : ℚ) ≤ 6500 := by
        simp only [MIN_HEIGHT, MAX_HEIGHT] at hle
        linarith
      exact_mod_cast hq
    · intro hle
      have hq : (u16LE b0 b1 : ℚ) ≤ 6500 := by exact_mod_cast hle
      simp only [MIN_HEIGHT, MAX_HEIGHT]
      linarith

/-- Witness for C9 (amended) at the all-zero frame. -/
theorem decode_height_bounds_witness :
    MIN_HEIGHT ≤ MIN_HEIGHT ∧ (MIN_HEIGHT ≤ MAX_HEIGHT ↔ u16LE 0 0 ≤ 6500) :=
  decode_height_bounds 0 0 0 0 MIN_HEIGHT 0 decode_min_frame

/-- C3 counterexample: at height 0.62007 m, `_meters_to_bytes` (which uses
Python `int(...)`, truncation) produces `0x00 0x00`, while the claimed
`round(...)` formula would produce `0x01 0x00`; the code does not round. -/
theorem encode_round_mismatch :
    metersToBytes (62007/100000) = some [(0 : Byte), 0]
    ∧ roundEncodeSpec (62007/100000) = some [(1 : Byte), 0]
    ∧ metersToBytes (62007/100000) ≠ roundEncodeSpec (62007/100000) := by
  have ht : pyIntTrunc ((62007/100000 - MIN_HEIGHT) * 10000) = 0 := by
    rw [pyIntTrunc, if_pos (by norm_num [MIN_HEIGHT])]
    norm_num [MIN_HEIGHT]
  have hr : round (((62007 : ℚ)/100000 - MIN_HEIGHT) * 10000) = 1 := by
    norm_num [round_eq, MIN_HEIGHT]
  have ha : metersToBytes (62007/100000) = some [(0 : Byte), 0] := by
    simp only [metersToBytes, ht]
    norm_num
  have hb : roundEncodeSpec (62007/100000) = some [(1 : Byte), 0] := by
    simp only [roundEncodeSpec, hr]
    norm_num
  exact ⟨ha, hb, by rw [ha, hb]; decide⟩

/-- C3 amended: for every height in `[MIN_HEIGHT, MAX_HEIGHT]`,
`_meters_to_bytes` produces the 2-byte little-endian unsigned 16-bit packing
of `int((h - MIN_HEIGHT) * 10000)` — truncation toward zero, not rounding —
and re-decoding the resulting frame recovers the height to within (strictly
less than) 1/10000 m. -/
theorem encode_trunc_roundtrip (m : ℚ) (hmin : MIN_HEIGHT ≤ m)
    (hmax : m ≤ MAX_HEIGHT) :
    ∃ b0 b1 : Byte,
      metersToBytes m = some [b0, b1]
      ∧ (u16LE b0 b1 : ℤ) = pyIntTrunc ((m - MIN_HEIGHT) * 10000)
      ∧ ∃ m' s : ℚ,
          bytesToMetersAndSpeed [b0, b1, 0, 0] = some (m', s)
          ∧ s = 0 ∧ 0 ≤ m - m' ∧ m - m' < 1/10000 := by
  have hmin' : (62/100 : ℚ) ≤ m := by simpa [MIN_HEIGHT] using hmin
  have hmax' : m ≤ 127/100 := by simpa [MAX_HEIGHT] using hmax
  set q : ℚ := (m - MIN_HEIGHT) * 10000 with hq
  have hqlin : q = 10000 * m - 6200 := by simp only [hq, MIN_HEIGHT]; ring
  have hq0 : 0 ≤ q := by rw [hqlin]; linarith
  have hq65 : q ≤ 6500 := by rw [hqlin]; linarith
  have htr : pyIntTrunc q = ⌊q⌋ := by simp [pyIntTrunc, hq0]
  have hn0 : 0 ≤ ⌊q⌋ := Int.floor_nonneg.mpr hq0
  have hn65 : ⌊q⌋ ≤ 6500 := by
    have h1 : ((⌊q⌋ : ℤ) : ℚ) ≤ 6500 := le_trans (Int.floor_le q) hq65
    exact_mod_cast h1
  set n : ℕ := ⌊q⌋.toNat with hn
  have hzn : (n : ℤ) = ⌊q⌋ := Int.toNat_of_nonneg hn0
  have hb0 : n % 256 < 256 := Nat.mod_lt _ (by norm_num)
  have hb1 : n / 256 < 256 := by omega
  have hu : u16LE ⟨n % 256, hb0⟩ ⟨n / 256, hb1⟩ = n := by
    simp only [u16LE]
    omega
  refine ⟨⟨n % 256, hb0⟩, ⟨n / 256, hb1⟩, ?_, ?_, ?_⟩
  · simp only [metersToBytes, ← hq, htr]
    rw [dif_pos ⟨hn0, by omega⟩]
  · rw [hu, htr]
    exact hzn
  · refine ⟨(n : ℚ)/10000 + MIN_HEIGHT, 0, ?_, rfl, ?_, ?_⟩
    · simp only [bytesToMetersAndSpeed, hu, show s16LE 0 0 = 0 from rfl]
      norm_num
    · have hfl : ((⌊q⌋ : ℤ) : ℚ) ≤ q := Int.floor_le q
      have hqn : (n : ℚ) = ((⌊q⌋ : ℤ) : ℚ) := by exact_mod_cast hzn
      simp only [MIN_HEIGHT]
      linarith
    · have hfl : q < ((⌊q⌋ : ℤ) : ℚ) + 1 := Int.lt_floor_add_one q
      have hqn : (n : ℚ) = ((⌊q⌋ : ℤ) : ℚ) := by exact_mod_cast hzn
      simp only [MIN_HEIGHT]
      linarith

/-- Witness for C3 (amended) at height 0.7305 m. -/
theorem encode_trunc_roundtrip_witness :
    ∃ b0 b1 : Byte,
      metersToBytes (7305/10000) = some [b0, b1]
      ∧ (u16LE b0 b1 : ℤ) = pyIntTrunc ((7305/10000 - MIN_HEIGHT) * 10000)
      ∧ ∃ m' s : ℚ,
          bytesToMetersAndSpeed [b0, b1, 0, 0] = some (m', s)
          ∧ s = 0 ∧ 0 ≤ 7305/10000 - m' ∧ 7305/10000 - m' < 1/10000 :=
  encode_trunc_roundtrip (7305/10000) (by norm_num [MIN_HEIGHT])
    (by norm_num [MAX_HEIGHT])

/-- C6: `connect` makes at most `RETRY_COUNT` (3) retries after a failed
attempt — 4 attempts total — sleeping `0.3 * attempt_number` seconds
(0.3, 0.6, 0.9) before each retry and logging one warning per failed retried
attempt; after exhausting retries it logs one critical message and then
exits the process with status 1 when `exit_on_fail` is set, otherwise
re-raises.  The five conjuncts cover every possible pattern of attempt
results. -/
theorem connect_retry_behaviour (ok : ℕ → Bool) (exitOnFail : Bool) :
    (ok 0 = true → connectRun ok exitOnFail = ⟨.connected, [], [], 0⟩)
    ∧ (ok 0 = false → ok 1 = true →
        connectRun ok exitOnFail = ⟨.connected, [1], [3/10], 0⟩)
    ∧ (ok 0 = false → ok 1 = false → ok 2 = true →
        connectRun ok exitOnFail = ⟨.connected, [1, 2], [3/10, 6/10], 0⟩)
    ∧ (ok 0 = false → ok 1 = false → ok 2 = false → ok 3 = true →
        connectRun ok exitOnFail =
          ⟨.connected, [1, 2, 3], [3/10, 6/10, 9/10], 0⟩)
    ∧ (ok 0 = false → ok 1 = false → ok 2 = false → ok 3 = false →
        connectRun ok exitOnFail =
          ⟨if exitOnFail then .exited 1 else .raised, [1, 2, 3],
           [3/10, 6/10, 9/10], 1⟩) := by
  refine ⟨?_, ?_, ?_, ?_, ?_⟩
  · intro h0
    simp [connectRun, connectAux, RETRY_COUNT, h0]
  · intro h0 h1
    simp [connectRun, connectAux, RETRY_COUNT, h0, h1]
  · intro h0 h1 h2
    simp [connectRun, connectAux, RETRY_COUNT, h0, h1, h2]
    norm_num
  · intro h0 h1 h2 h3
    simp [connectRun, connectAux, RETRY_COUNT, h0, h1, h2, h3]
    norm_num
  · intro h0 h1 h2 h3
    simp [connectRun, connectAux, RETRY_COUNT, h0, h1, h2, h3]
    norm_num

/-- Witness for C6: with every attempt failing and `exit_on_fail` set, the
process exits with status 1 after warnings 1, 2, 3 and sleeps 0.3, 0.6, 0.9,
with one critical log line. -/
theorem connect_retry_behaviour_witness :
    connectRun (fun _ => false) true =
      ⟨.exited 1, [1, 2, 3], [3/10, 6/10, 9/10], 1⟩ := by
  have h := (connect_retry_behaviour (fun _ => false) true).2.2.2.2
    rfl rfl rfl rfl
  simpa using h

/-- C7 counterexample: with a height-only callback, two frames decoding to
0.62 m and 0.621 m — differing by *exactly* 0.001 m, hence not by more than
0.001 m — are both dispatched: the code dispatches on a difference of at
least 0.001 (`not <`), not strictly more than 0.001 as claimed. -/
theorem monitor_dedup_boundary :
    monitorRun false [[0, 0, 0, 0], [0x0A, 0, 0, 0]] (0, 0) =
      some [(62/100, none), (621/1000, none)]
    ∧ |(621/1000 : ℚ) - 62/100| ≤ 1/1000 := by
  have d2 : bytesToMetersAndSpeed [0x0A, 0, 0, 0] = some (621/1000, 0) := by
    rw [bytesToMetersAndSpeed, show u16LE 0x0A 0 = 10 from rfl,
        show s16LE 0 0 = 0 from rfl]
    norm_num [MIN_HEIGHT]
  have habs : |(1 : ℚ)/1000| = 1/1000 := abs_of_pos (by norm_num)
  have habs2 : |(31 : ℚ)/50| = 31/50 := abs_of_pos (by norm_num)
  have e1 : outputListener false 0 [0, 0, 0, 0] =
      some ((62/100, 0), some (62/100, none)) := by
    simp only [outputListener, decode_min_frame, MIN_HEIGHT]
    norm_num [habs2]
  have e2 : outputListener false (62/100, 0) [0x0A, 0, 0, 0] =
      some ((621/1000, 0), some (621/1000, none)) := by
    simp only [outputListener, d2]
    norm_num [habs]
  refine ⟨?_, by rw [show |(621/1000 : ℚ) - 62/100| = |(1:ℚ)/1000| by norm_num,
    habs]⟩
  rw [show ((0, 0) : ℚ × ℚ) = 0 from rfl]
  simp [monitorRun, e1, e2]

/-- C7 amended: `output_listener` dispatches a decoded reading to the
callback if and only if it differs from the previously stored reading by at
least 0.001 m in height or — only when the callback requested speed — by at
least 0.001 m/s in speed (the threshold is inclusive: a difference of
exactly 0.001 is dispatched); and two consecutive frames decoding to heights
differing by less than 0.001 m under a height-only callback produce exactly
one callback invocation, for the first. -/
theorem monitor_dedup_threshold :
    (∀ (mode : Bool) (prev : ℚ × ℚ) (raw : List Byte) (height speed : ℚ),
        bytesToMetersAndSpeed raw = some (height, speed) →
        (dispatchesOn mode prev raw = true ↔
          1/1000 ≤ |height - prev.1| ∨
            (mode = true ∧ 1/1000 ≤ |speed - prev.2|)))
    ∧ (∀ (r1 r2 : List Byte) (hA sA hB sB : ℚ),
        bytesToMetersAndSpeed r1 = some (hA, sA) →
        bytesToMetersAndSpeed r2 = some (hB, sB) →
        |hB - hA| < 1/1000 →
        monitorRun false [r1, r2] (0, 0) = some [(hA, none)]) := by
  constructor
  · intro mode prev raw height speed hdec
    have hout : outputListener mode prev raw =
        if |height - prev.1| < 1/1000 ∧ (¬(mode = true) ∨ |speed - prev.2| < 1/1000)
        then some (prev, none)
        else some ((height, speed),
          some (height, if mode then some speed else none)) := by
      simp only [outputListener, hdec]
    have hiff : (1/1000 ≤ |height - prev.1| ∨
        (mode = true ∧ 1/1000 ≤ |speed - prev.2|)) ↔
        ¬(|height - prev.1| < 1/1000 ∧
          (¬(mode = true) ∨ |speed - prev.2| < 1/1000)) := by
      simp only [not_and_or, not_or, not_not, not_lt]
    rw [hiff]
    by_cases hcond : |height - prev.1| < 1/1000 ∧
        (¬(mode = true) ∨ |speed - prev.2| < 1/1000)
    · have hred : dispatchesOn mode prev raw = false := by
        rw [dispatchesOn, hout, if_pos hcond]
      rw [hred]
      simp only [Bool.false_eq_true, false_iff]
      exact not_not_intro hcond
    · have hred : dispatchesOn mode prev raw = true := by
        rw [dispatchesOn, hout, if_neg hcond]
      rw [hred]
      exact iff_of_true rfl hcond
  · intro r1 r2 hA sA hB sB hdec1 hdec2 hclose
    have hge : MIN_HEIGHT ≤ hA := decode_height_ge_min _ _ _ hdec1
    have hge' : (62/100 : ℚ) ≤ hA := by norm_num [MIN_HEIGHT] at hge; linarith
    have hApos : (0 : ℚ) ≤ hA := by linarith
    have hcond1 : ¬(|hA - (0 : ℚ)| < 1/1000) := by
      rw [sub_zero, abs_of_nonneg hApos]
      push_neg
      linarith
    have e1 : outputListener false 0 r1 = some ((hA, sA), some (hA, none)) := by
      simp only [outputListener, hdec1, Prod.fst_zero, Prod.snd_zero]
      rw [if_neg (by intro hc; exact hcond1 hc.1)]
      simp
    have e2 : outputListener false (hA, sA) r2 = some ((hA, sA), none) := by
      simp only [outputListener, hdec2]
      rw [if_pos ⟨by simpa using hclose, Or.inl (by simp)⟩]
    rw [show ((0, 0) : ℚ × ℚ) = 0 from rfl]
    simp [monitorRun, e1, e2]

/-- Witness for C7 (amended): delivering the all-zero frame twice invokes
the height-only callback exactly once. -/
theorem monitor_dedup_threshold_witness :
    monitorRun false [[0, 0, 0, 0], [0, 0, 0, 0]] (0, 0) =
      some [(MIN_HEIGHT, none)] :=
  monitor_dedup_threshold.2 [0, 0, 0, 0] [0, 0, 0, 0] MIN_HEIGHT 0 MIN_HEIGHT 0
    decode_min_frame decode_min_frame (by norm_num)

lemma doMoveLoop_no_range (env : Env) (data : List Byte) :
    ∀ (fuel r f : ℕ) (tr : List Action) (e : RangeErr),
      (doMoveLoop env data fuel r f tr).2 ≠ MoveRes.rangeError e := by
  intro fuel
  induction fuel with
  | zero =>
      intro r f tr e
      simp [doMoveLoop]
  | succ n ih =>
      intro r f tr e
      rw [doMoveLoop]
      split
      · split
        · simp
        · split
          · simp
          · split
            · simp
            · exact ih _ _ _ e
      · simp

lemma doMove_no_range (env : Env) (target : ℚ) (fuel : ℕ) (e : RangeErr) :
    (doMove env target fuel).2 ≠ MoveRes.rangeError e := by
  rw [doMove]
  split
  · simp
  · split
    · simp
    · split
      · simp
      · split
        · split
          · split
            · simp
            · exact doMoveLoop_no_range env _ fuel 1 0 _ e
          · simp
        · simp

/-- C2: `move_to_target` raises `ValueError` exactly when the target is
strictly above `MAX_HEIGHT` or strictly below `MIN_HEIGHT`, with distinct
messages for the two cases carrying the offending value rounded to three
decimals, raised before any transport interaction or state change (empty
trace, `_moving` unchanged); boundary targets are accepted. -/
theorem move_to_target_range_check (env : Env) (moving : Bool) (target : ℚ)
    (fuel : ℕ) :
    (MAX_HEIGHT < target →
      moveToTarget env moving target fuel =
        ⟨moving, [], [],
         .rangeError (.aboveMax (round3 target) (round3 MAX_HEIGHT))⟩)
    ∧ (target < MIN_HEIGHT →
      moveToTarget env moving target fuel =
        ⟨moving, [], [],
         .rangeError (.belowMin (round3 target) (round3 MIN_HEIGHT))⟩)
    ∧ (MIN_HEIGHT ≤ target → target ≤ MAX_HEIGHT →
        ∀ e : RangeErr, (moveToTarget env moving target fuel).result ≠
          .rangeError e)
    ∧ (∀ d1 c1 d2 c2 : ℚ, RangeErr.aboveMax d1 c1 ≠ RangeErr.belowMin d2 c2) := by
  refine ⟨?_, ?_, ?_, ?_⟩
  · intro hgt
    rw [moveToTarget, if_pos hgt]
  · intro hlt
    rw [moveToTarget, if_neg (not_lt.mpr (le_of_lt (hlt.trans min_lt_max))),
        if_pos hlt]
  · intro hmin hmax e
    rw [moveToTarget, if_neg (not_lt.mpr hmax), if_neg (not_lt.mpr hmin)]
    cases moving with
    | true => simp
    | false =>
        simp only [Bool.false_eq_true, if_false]
        rcases hdm : doMove env target fuel with ⟨tr, res⟩
        have hnr := doMove_no_range env target fuel e
        rw [hdm] at hnr
        cases res <;> simp_all
  · intro d1 c1 d2 c2 hcontra
    exact RangeErr.noConfusion hcontra

/-- Witness for C2 at concrete targets 2.0 m (above max) and 1.0 m
(in range). -/
theorem move_to_target_range_check_witness :
    moveToTarget envAtMax false 2 5 =
      ⟨false, [], [],
       .rangeError (.aboveMax (round3 2) (round3 MAX_HEIGHT))⟩
    ∧ ∀ e : RangeErr, (moveToTarget envAtMax false 1 5).result ≠
        .rangeError e :=
  ⟨(move_to_target_range_check envAtMax false 2 5).1
      (by norm_num [MAX_HEIGHT]),
   (move_to_target_range_check envAtMax false 1 5).2.2.1
      (by norm_num [MIN_HEIGHT]) (by norm_num [MAX_HEIGHT])⟩

/-- C5: a `move_to_target` call with an in-range target made while a session
is already active logs an error and returns normally: no exception, no
transport interaction, and the session state is unchanged. -/
theorem move_to_target_already_moving (env : Env) (target : ℚ) (fuel : ℕ)
    (hmin : MIN_HEIGHT ≤ target) (hmax : target ≤ MAX_HEIGHT) :
    moveToTarget env true target fuel = ⟨true, [], [.alreadyMoving], .ok⟩ := by
  rw [moveToTarget, if_neg (not_lt.mpr hmax), if_neg (not_lt.mpr hmin)]
  rfl

/-- Witness for C5 at target 1.0 m. -/
theorem move_to_target_already_moving_witness :
    moveToTarget envAtMax true 1 5 = ⟨true, [], [.alreadyMoving], .ok⟩ :=
  move_to_target_already_moving envAtMax 1 5 (by norm_num [MIN_HEIGHT])
    (by norm_num [MAX_HEIGHT])

/-- C4 counterexample: when the move loop fails internally (here: the very
first height read raises), `move_to_target` propagates the failure and
`_moving` remains `true` — the session is *not* marked inactive, because the
source has no `try`/`finally` around the awaited task. -/
theorem move_failure_keeps_moving_flag :
    (moveToTarget envReadFail false 1 10).moving = true
    ∧ (moveToTarget envReadFail false 1 10).result = .failure := by
  have hdm : doMove envReadFail 1 10 = ([.readHeight], .failure) := rfl
  have h : moveToTarget envReadFail false 1 10 =
      ⟨true, [.readHeight], [], .failure⟩ := by
    rw [moveToTarget, if_neg (by norm_num [MAX_HEIGHT]),
        if_neg (by norm_num [MIN_HEIGHT])]
    simp only [Bool.false_eq_true, if_false, hdm]
  rw [h]
  exact ⟨rfl, rfl⟩

/-- C4 amended: when `move_to_target` starts a session (in-range target, no
session active) and the awaited move loop completes normally, the session is
marked inactive (`_moving = false`); when the move loop terminates with an
internal failure, the exception propagates and the session remains marked
active. -/
theorem move_to_target_completion (env : Env) (target : ℚ) (fuel : ℕ)
    (hmin : MIN_HEIGHT ≤ target) (hmax : target ≤ MAX_HEIGHT) :
    ((moveToTarget env false target fuel).result = .ok →
      (moveToTarget env false target fuel).moving = false)
    ∧ ((moveToTarget env false target fuel).result = .failure →
      (moveToTarget env false target fuel).moving = true) := by
  rw [moveToTarget, if_neg (not_lt.mpr hmax), if_neg (not_lt.mpr hmin)]
  simp only [Bool.false_eq_true, if_false]
  rcases hdm : doMove env target fuel with ⟨tr, res⟩
  cases res <;> simp

/-- Evaluation of a full `move_to_target` call against `envAtMax`: the first
height read reports the desk already at the target. -/
lemma mtt_atMax_eval :
    moveToTarget envAtMax false MAX_HEIGHT 5 =
      ⟨false, [.readHeight], [], .ok⟩ := by
  have hdm : doMove envAtMax MAX_HEIGHT 5 = ([.readHeight], .ok) := by
    rw [doMove]
    simp [envAtMax, decode_max_frame]
  rw [moveToTarget, if_neg (lt_irrefl _),
      if_neg (not_lt.mpr (le_of_lt min_lt_max))]
  simp only [Bool.false_eq_true, if_false, hdm]

/-- Witness for C4 (amended): against `envAtMax` the session ends inactive. -/
theorem move_to_target_completion_witness :
    (moveToTarget envAtMax false MAX_HEIGHT 5).moving = false :=
  (move_to_target_completion envAtMax MAX_HEIGHT 5 (le_of_lt min_lt_max)
      le_rfl).1 (by rw [mtt_atMax_eval])

/-- C10: if the first height read returns exactly the in-range target, the
move loop returns immediately after that single read: no wakeup command, no
stop command, no reference-input write, and the session ends inactive. -/
theorem move_to_target_noop (env : Env) (target s : ℚ) (fuel : ℕ)
    (raw : List Byte)
    (hframe : env.frames 0 = some raw)
    (hdec : bytesToMetersAndSpeed raw = some (target, s))
    (hmin : MIN_HEIGHT ≤ target) (hmax : target ≤ MAX_HEIGHT) :
    moveToTarget env false target fuel = ⟨false, [.readHeight], [], .ok⟩ := by
  have hdm : doMove env target fuel = ([.readHeight], .ok) := by
    rw [doMove, hframe]
    simp [hdec]
  rw [moveToTarget, if_neg (not_lt.mpr hmax), if_neg (not_lt.mpr hmin)]
  simp only [Bool.false_eq_true, if_false, hdm]

/-- Witness for C10: desk already at `MAX_HEIGHT`, target `MAX_HEIGHT`. -/
theorem move_to_target_noop_witness :
    moveToTarget envAtMax false MAX_HEIGHT 5 =
      ⟨false, [.readHeight], [], .ok⟩ :=
  move_to_target_noop envAtMax MAX_HEIGHT 0 5 [0x64, 0x19, 0x00, 0x00] rfl
    decode_max_frame (le_of_lt min_lt_max) le_rfl

end Idasen
